import Mathlib

/-!
Verification of the bounded concurrent recursive sitemap crawler
(`scripts/parse_sitemap.py`) against its natural-language specification.

The Python program is shallowly embedded below.  All mutation of the two
shared sets (`checked_sitemaps`, `all_urls`) happens inside `with lock:`
blocks in the source, so every concurrent execution is equivalent to some
sequential interleaving of those atomic critical sections; the embedding
models the registry operations as pure state-passing functions and
quantifies over arbitrary task lists, which covers arbitrary serialization
orders of the worker pool.
-/

namespace ReconSitemap

/-! ### Character/string utilities (models of Python string primitives) -/

/-- Boolean test that the first list is a prefix of the second. -/
def startsWithChars : List Char → List Char → Bool
  | [], _ => true
  | _ :: _, [] => false
  | a :: as, b :: bs => a == b && startsWithChars as bs

/-- Boolean substring test: does `needle` occur contiguously in the second list?
Models the Python expression `needle in s`. -/
def listContains (needle : List Char) : List Char → Bool
  | [] => startsWithChars needle []
  | c :: t => startsWithChars needle (c :: t) || listContains needle t

/-- Boolean suffix test over char lists. -/
def endsWithChars (suffix s : List Char) : Bool :=
  startsWithChars suffix.reverse s.reverse

/-- Models Python `s.endswith(suffix)`. -/
def strEndsWith (s suffix : String) : Bool :=
  endsWithChars suffix.data s.data

/-- The whitespace characters removed by Python `str.strip()` (ASCII range). -/
def isPySpace (c : Char) : Bool :=
  c == ' ' || c == '\t' || c == '\n' || c == '\r' || c == '\x0b' || c == '\x0c'

/-- Models Python `str.strip()`: drop whitespace from both ends. -/
def stripChars (l : List Char) : List Char :=
  ((l.dropWhile isPySpace).reverse.dropWhile isPySpace).reverse

/-- Models Python `line.strip()` on a `String`. -/
def pyStrip (s : String) : String :=
  String.mk (stripChars s.data)

/-- Lexicographic (code-point) comparison of char lists: the string order
used by Python `sorted` on `str` values. -/
def charsLe : List Char → List Char → Bool
  | [], _ => true
  | _ :: _, [] => false
  | a :: as, b :: bs =>
    if a.toNat < b.toNat then true
    else if b.toNat < a.toNat then false
    else charsLe as bs

/-- Python string comparison `a <= b`: code-point lexicographic order. -/
def strLe (a b : String) : Prop := charsLe a.data b.data = true

instance strLe.decidableRel : DecidableRel strLe := fun a b =>
  inferInstanceAs (Decidable (charsLe a.data b.data = true))

/-! ### Data model

A sitemap document, as produced by the XML parsing contract: the stripped
text of each `<url><loc>` child and of each `<sitemap><loc>` child
(lines 56-73 of `parse_sitemap.py`). -/

structure SitemapDoc where
  urlLocs : List String
  sitemapLocs : List String
deriving DecidableEq

/-! ### Retry/fetch loop (`fetch_sitemap_urls`, lines 36-80)

The loop body `for attempt in range(1, retries + 1)` performs, per
iteration: `time.sleep(delay)`, one `requests.get` call, then
  * if `response.status_code != 200`: log and `return` (terminal, no retry);
  * decompress (may raise) and `ET.fromstring` (may raise): any raised
    exception is caught by the `except` on line 77 and the loop continues
    with the next attempt;
  * on success the parsed document is processed and the nested list returned.
The oracle maps the attempt number (1-based) to what the network and the
decoder do on that attempt. -/

/-- Result of decoding the body of one 200 response. -/
inductive RespBody where
  | wellFormed (doc : SitemapDoc)
  | malformedXml
  | corruptGzip
deriving DecidableEq

/-- What happens on one fetch attempt: `requests.get` raises, or a response
with the given status code and body arrives. -/
inductive AttemptOutcome where
  | fetchExn
  | resp (status : Nat) (body : RespBody)
deriving DecidableEq

/-- Terminal outcome of the per-task fetch loop. -/
inductive TaskResult where
  | success (doc : SitemapDoc)
  | terminalBadStatus (status : Nat)
  | exhausted
deriving DecidableEq

/-- The fetch loop: `k` is the remaining retry budget, `n` the number of
fetch attempts (calls of `requests.get`) made so far.  Returns the terminal
result together with the total number of fetch attempts made. -/
def runAttempts (oracle : Nat → AttemptOutcome) : Nat → Nat → TaskResult × Nat
  | 0, n => (TaskResult.exhausted, n)
  | k + 1, n =>
    match oracle (n + 1) with
    | AttemptOutcome.fetchExn => runAttempts oracle k (n + 1)
    | AttemptOutcome.resp status body =>
      if status = 200 then
        match body with
        | RespBody.wellFormed doc => (TaskResult.success doc, n + 1)
        | RespBody.malformedXml => runAttempts oracle k (n + 1)
        | RespBody.corruptGzip => runAttempts oracle k (n + 1)
      else (TaskResult.terminalBadStatus status, n + 1)

/-- One task's whole fetch loop, as run by `fetch_sitemap_urls` with the
configured `retries` budget. -/
def fetchTask (oracle : Nat → AttemptOutcome) (retries : Nat) : TaskResult × Nat :=
  runAttempts oracle retries 0

/-- An attempt outcome that the `except` clause on line 77 catches and that
therefore consumes one retry: a raised fetch exception, or a 200 response
whose decode step raises (corrupt gzip or malformed XML). -/
def retryableOutcome (a : AttemptOutcome) : Bool :=
  match a with
  | AttemptOutcome.fetchExn => true
  | AttemptOutcome.resp status body =>
    status == 200 && (body == RespBody.malformedXml || body == RespBody.corruptGzip)

/-! ### Document decoder (lines 47-52)

`raw_content` is either a plain XML text or a gzip stream wrapping one; a
gzip stream always begins with the magic bytes `0x1f 0x8b`, a plain XML
text never does.  `gzip.decompress` raises on a non-gzip input and
`ET.fromstring` fails on a raw gzip stream, so decoding succeeds exactly
when the decompression decision matches the actual body format. -/

inductive RawBody where
  | plain (text : String)
  | gzipped (text : String)
deriving DecidableEq

/-- Whether the raw response bytes start with the gzip magic bytes. -/
def startsWithGzipMagic : RawBody → Bool
  | RawBody.plain _ => false
  | RawBody.gzipped _ => true

def gzipNeedle : String := "gzip"

def gzSuffix : String := ".gz"

/-- The decompression decision actually taken on line 49:
`"gzip" in content_type or sitemap_url.endswith(".gz")`. -/
def decompressApplied (contentType url : String) : Bool :=
  listContains gzipNeedle.data contentType.data || strEndsWith url gzSuffix

/-- The decompression decision as the specification words it: gzip magic
bytes, or a `.gz` URL suffix, or a declared gzip content-type.  Stated for
comparison with `decompressApplied`, which is transcribed from the code. -/
def specDecompressCondition (body : RawBody) (contentType url : String) : Bool :=
  startsWithGzipMagic body || strEndsWith url gzSuffix ||
    listContains gzipNeedle.data contentType.data

/-- Lines 47-52: optionally decompress, then hand the text to the XML
parser.  Returns the XML text reaching `ET.fromstring`, or `none` when the
step raises (wrong decompression decision for the actual body format). -/
def decodeStep (body : RawBody) (contentType url : String) : Option String :=
  if decompressApplied contentType url then
    match body with
    | RawBody.gzipped t => some t
    | RawBody.plain _ => none
  else
    match body with
    | RawBody.plain t => some t
    | RawBody.gzipped _ => none

/-! ### Dedup registry and crawl state

`checked_sitemaps` and `all_urls` are Python sets; we model them as
duplicate-free lists (the guards below insert an element only when absent,
which is exactly how the sets behave).  `fetchLog` records, newest first,
every task `(url, depth)` that passed the claim guard on lines 26-29 and
was therefore handed to the fetch adapter. -/

structure CrawlState where
  checked : List String
  allUrls : List String
  fetchLog : List (String × Nat)
deriving DecidableEq

/-- The module-level registry at process start: both sets empty. -/
def emptyCrawlState : CrawlState := ⟨[], [], []⟩

/-- Lines 61-63, one critical section: `if url not in all_urls and
len(all_urls) < max_urls: all_urls.add(url)`. -/
def tryAddURL (maxUrls : Nat) (allUrls : List String) (url : String) : List String :=
  if url ∉ allUrls ∧ allUrls.length < maxUrls then url :: allUrls else allUrls

/-- Lines 57-63: fold `tryAddURL` over the `<url><loc>` texts of a parsed
document, in document order. -/
def addUrls (maxUrls : Nat) (allUrls : List String) (locs : List String) : List String :=
  locs.foldl (tryAddURL maxUrls) allUrls

/-- One worker running `fetch_sitemap_urls` to completion, lines 23-80.
`web url` abstracts the whole fetch-retry loop for `url`: `some doc` when
some attempt succeeds with parsed document `doc`, `none` when the task ends
with a non-2xx response or an exhausted retry budget (both return no
nested list).  The claim guard (lines 26-29), run under the lock, rejects
the task when the URL is already claimed or the URL cap is reached; only
a task passing the guard reaches the network. -/
def fetch_sitemap_urls (web : String → Option SitemapDoc) (maxDepth : Int) (maxUrls : Nat)
    (url : String) (depth : Nat) (st : CrawlState) : CrawlState × List (String × Nat) :=
  if url ∈ st.checked ∨ maxUrls ≤ st.allUrls.length then (st, [])
  else
    match web url with
    | none =>
      (⟨url :: st.checked, st.allUrls, (url, depth) :: st.fetchLog⟩, [])
    | some doc =>
      if (depth : Int) < maxDepth then
        (⟨url :: st.checked, addUrls maxUrls st.allUrls doc.urlLocs,
            (url, depth) :: st.fetchLog⟩,
          doc.sitemapLocs.map (fun u => (u, depth + 1)))
      else
        (⟨url :: st.checked, addUrls maxUrls st.allUrls doc.urlLocs,
            (url, depth) :: st.fetchLog⟩, [])

/-- One frontier layer of `threaded_crawler` (lines 91-111): every queued
task is submitted; the completed results' nested lists are concatenated
into the next layer's queue.  Completion order within a layer is an
interleaving choice; theorems below quantify over arbitrary queues, which
covers every serialization the worker pool can produce. -/
def runLayer (web : String → Option SitemapDoc) (maxDepth : Int) (maxUrls : Nat) :
    List (String × Nat) → CrawlState → CrawlState × List (String × Nat)
  | [], st => (st, [])
  | (u, d) :: rest, st =>
    let r1 := fetch_sitemap_urls web maxDepth maxUrls u d st
    let r2 := runLayer web maxDepth maxUrls rest r1.1
    (r2.1, r1.2 ++ r2.2)

/-- The `while queue:` loop of `threaded_crawler`, lines 91-114: process a
layer, then stop early when the global URL cap is reached (lines 112-114),
otherwise continue with the nested layer.  `fuel` bounds the number of
layers; seeds enter at depth 0 and nesting increments depth, so at most
`maxDepth + 1` layers are ever non-empty and the fuel passed by
`threaded_crawler` is sufficient for the loop to drain. -/
def crawlLayers (web : String → Option SitemapDoc) (maxDepth : Int) (maxUrls : Nat) :
    Nat → List (String × Nat) → CrawlState → CrawlState
  | 0, _, st => st
  | _ + 1, [], st => st
  | fuel + 1, t :: rest, st =>
    let r := runLayer web maxDepth maxUrls (t :: rest) st
    if maxUrls ≤ r.1.allUrls.length then r.1
    else crawlLayers web maxDepth maxUrls fuel r.2 r.1

/-- `threaded_crawler` (lines 83-114): seed the queue with the input URLs
at depth 0 and run the layer loop.  The registry state is an explicit
argument because the Python sets are module-level globals: the function
body never resets them, it only continues from whatever they hold. -/
def threaded_crawler (web : String → Option SitemapDoc) (maxDepth : Int) (maxUrls : Nat)
    (sitemap_urls : List String) (st : CrawlState) : CrawlState :=
  crawlLayers web maxDepth maxUrls (maxDepth.toNat + 2) (sitemap_urls.map (fun u => (u, 0))) st

/-! ### Input filtering and `main` (lines 117-181) -/

def sitemapNeedle : String := "sitemap"

def xmlNeedle : String := ".xml"

def xmlGzNeedle : String := ".xml.gz"

/-- The branch `sitemap.*\.xml` of the input regex (line 149): an
occurrence of `sitemap` followed, after zero or more characters, by an
occurrence of `.xml`. -/
def sitemapThenXml : List Char → Bool
  | [] => false
  | c :: t =>
    (startsWithChars sitemapNeedle.data (c :: t) &&
      listContains xmlNeedle.data (List.drop sitemapNeedle.data.length (c :: t)))
    || sitemapThenXml t

/-- Line 148-150: `re.search(r"(sitemap.*\.xml|\.xml(\.gz)?$)", line, re.IGNORECASE)`.
Case-insensitivity is modelled by lowercasing; the second alternative
anchors at the end of the line, i.e. the line ends with `.xml` or `.xml.gz`. -/
def matchesSitemapRef (line : String) : Bool :=
  let l := line.data.map Char.toLower
  sitemapThenXml l || endsWithChars xmlNeedle.data l || endsWithChars xmlGzNeedle.data l

/-- Lines 144-151: keep the stripped lines recognized as sitemap references. -/
def filterSitemapLines (ls : List String) : List String :=
  (ls.map pyStrip).filter matchesSitemapRef

/-- The input file: unreadable (the `open` on line 144 raises), or a list
of its lines. -/
inductive InputFile where
  | unreadable
  | readable (lines : List String)
deriving DecidableEq

/-- Line 172: Python `sorted` on the collected URL set — ascending
code-point lexicographic order. -/
def sortStrings (l : List String) : List String :=
  List.insertionSort strLe l

/-- Observable outcome of one `main()` run.  `main` returns `None` on every
path and the script never calls `sys.exit`, so the interpreter's exit code
is that of a normal return; `exitCode` records it.  `outputLines` lists the
lines of the output file, in file order, when it is written. -/
structure RunOutcome where
  exitCode : Nat
  outputWritten : Bool
  outputLines : List String
  urlCount : Nat
  sitemapCount : Nat
deriving DecidableEq

/-- `main` (lines 117-181), for a fresh process (module registry empty):
read and filter the input (early return on a read failure, line 152-154,
or an empty filtered list, lines 156-158), crawl, then write the sorted
collected URLs one per line and log the two summary counts
(lines 170-175). -/
def mainRun (input : InputFile) (web : String → Option SitemapDoc)
    (maxDepth : Int) (maxUrls : Nat) : RunOutcome :=
  match input with
  | InputFile.unreadable => ⟨0, false, [], 0, 0⟩
  | InputFile.readable ls =>
    if filterSitemapLines ls = [] then ⟨0, false, [], 0, 0⟩
    else
      let final := threaded_crawler web maxDepth maxUrls (filterSitemapLines ls) emptyCrawlState
      ⟨0, true, sortStrings final.allUrls, final.allUrls.length, final.checked.length⟩

/-! ### Invariant predicates -/

/-- The registry invariant maintained by the two critical sections: the
collected URL set never exceeds the cap and holds no duplicates, no URL is
claimed in the fetch log twice, and every logged fetch was claimed. -/
def RegistryInv (maxUrls : Nat) (st : CrawlState) : Prop :=
  st.allUrls.length ≤ maxUrls ∧ st.allUrls.Nodup ∧
    (st.fetchLog.map Prod.fst).Nodup ∧ ∀ p ∈ st.fetchLog, p.1 ∈ st.checked

/-- Every task logged as dispatched to the fetch adapter is within the
depth bound. -/
def DepthInv (maxDepth : Int) (st : CrawlState) : Prop :=
  ∀ p ∈ st.fetchLog, (p.2 : Int) ≤ maxDepth

/-! ### Concrete inputs used in counterexamples and witnesses -/

def rootUrl : String := "https://example.com/root.xml"

def subUrl : String := "https://example.com/sub.xml"

def leafA : String := "https://example.com/a"

def leafB : String := "https://example.com/b"

/-- The two-document mock graph of the spec's scenarios: `root.xml` lists
leaf `a` and nested sitemap `sub.xml`; `sub.xml` lists leaf `b`. -/
def exWeb : String → Option SitemapDoc := fun u =>
  if u = rootUrl then some ⟨[leafA], [subUrl]⟩
  else if u = subUrl then some ⟨[leafB], []⟩
  else none

/-- A one-document graph used for the registry-lifetime analysis. -/
def web8 : String → Option SitemapDoc := fun u =>
  if u = rootUrl then some ⟨[leafA], []⟩ else none

/-- First crawler invocation in a process: starts from the empty
module-level registry. -/
def run8a : CrawlState := threaded_crawler web8 5 100 [rootUrl] emptyCrawlState

/-- Second crawler invocation in the same process: the module-level sets
still hold whatever the first run left in them. -/
def run8b : CrawlState := threaded_crawler web8 5 100 [rootUrl] run8a

/-- An attempt oracle answering HTTP 500 to every fetch. -/
def oracle500 : Nat → AttemptOutcome :=
  fun _ => AttemptOutcome.resp 500 (RespBody.wellFormed ⟨[], []⟩)

/-- An attempt oracle raising a fetch exception on every attempt. -/
def oracleExn : Nat → AttemptOutcome := fun _ => AttemptOutcome.fetchExn

/-- An attempt oracle answering 200 with a malformed XML body every time. -/
def oracleMalformed200 : Nat → AttemptOutcome :=
  fun _ => AttemptOutcome.resp 200 RespBody.malformedXml

def ctXml : String := "application/xml"

/-- An input line that the regex on line 149 does not recognize. -/
def notSitemapLine : String := "https://example.com/page.html"

/-! ## Helper lemmas -/

theorem charsLe_cons_iff (a b : Char) (as bs : List Char) :
    charsLe (a :: as) (b :: bs) = true ↔
      a.toNat < b.toNat ∨ (a.toNat = b.toNat ∧ charsLe as bs = true) := by
  simp only [charsLe]
  by_cases h1 : a.toNat < b.toNat
  · simp [h1]
  · by_cases h2 : b.toNat < a.toNat
    · simp only [if_neg h1, if_pos h2, Bool.false_eq_true, false_iff]
      rintro (h | ⟨h, _⟩) <;> omega
    · have h3 : a.toNat = b.toNat := by omega
      simp [h1, h2, h3]

theorem charsLe_total : ∀ x y : List Char, charsLe x y = true ∨ charsLe y x = true
  | [], _ => Or.inl rfl
  | _ :: _, [] => Or.inr rfl
  | a :: as, b :: bs => by
    rcases Nat.lt_trichotomy a.toNat b.toNat with h | h | h
    · exact Or.inl ((charsLe_cons_iff a b as bs).mpr (Or.inl h))
    · rcases charsLe_total as bs with ih | ih
      · exact Or.inl ((charsLe_cons_iff a b as bs).mpr (Or.inr ⟨h, ih⟩))
      · exact Or.inr ((charsLe_cons_iff b a bs as).mpr (Or.inr ⟨h.symm, ih⟩))
    · exact Or.inr ((charsLe_cons_iff b a bs as).mpr (Or.inl h))

theorem charsLe_trans :
    ∀ x y z : List Char, charsLe x y = true → charsLe y z = true → charsLe x z = true
  | [], _, _, _, _ => rfl
  | _ :: _, [], _, hxy, _ => by simp [charsLe] at hxy
  | _ :: _, _ :: _, [], _, hyz => by simp [charsLe] at hyz
  | a :: as, b :: bs, c :: cs, hxy, hyz => by
    rw [charsLe_cons_iff] at hxy hyz ⊢
    rcases hxy with h1 | ⟨h1, h1r⟩
    · rcases hyz with h2 | ⟨h2, _⟩ <;> exact Or.inl (by omega)
    · rcases hyz with h2 | ⟨h2, h2r⟩
      · exact Or.inl (by omega)
      · exact Or.inr ⟨by omega, charsLe_trans as bs cs h1r h2r⟩

theorem strLe_total (a b : String) : strLe a b ∨ strLe b a :=
  charsLe_total a.data b.data

theorem strLe_trans (a b c : String) (h1 : strLe a b) (h2 : strLe b c) : strLe a c :=
  charsLe_trans a.data b.data c.data h1 h2

/-! ### Registry operation lemmas -/

theorem tryAddURL_length_le (m : Nat) (s : List String) (u : String) (h : s.length ≤ m) :
    (tryAddURL m s u).length ≤ m := by
  unfold tryAddURL
  split
  · next hc => exact hc.2
  · exact h

theorem addUrls_length_le (m : Nat) (locs s : List String) (h : s.length ≤ m) :
    (addUrls m s locs).length ≤ m := by
  induction locs generalizing s with
  | nil => exact h
  | cons x xs ih => exact ih (tryAddURL m s x) (tryAddURL_length_le m s x h)

theorem tryAddURL_nodup (m : Nat) (s : List String) (u : String) (h : s.Nodup) :
    (tryAddURL m s u).Nodup := by
  unfold tryAddURL
  split
  · next hc => exact List.nodup_cons.mpr ⟨hc.1, h⟩
  · exact h

theorem addUrls_nodup (m : Nat) (locs s : List String) (h : s.Nodup) :
    (addUrls m s locs).Nodup := by
  induction locs generalizing s with
  | nil => exact h
  | cons x xs ih => exact ih (tryAddURL m s x) (tryAddURL_nodup m s x h)

theorem tryAddURL_suffix (m : Nat) (s : List String) (u : String) :
    s <:+ tryAddURL m s u := by
  unfold tryAddURL
  split
  · exact List.suffix_cons u s
  · exact List.suffix_refl s

theorem addUrls_suffix (m : Nat) (locs s : List String) : s <:+ addUrls m s locs := by
  induction locs generalizing s with
  | nil => exact List.suffix_refl s
  | cons x xs ih => exact (tryAddURL_suffix m s x).trans (ih (tryAddURL m s x))

/-! ### Unfolding equations for the worker and the scheduler -/

theorem fetch_guard_true (web : String → Option SitemapDoc) (mD : Int) (mU : Nat)
    (u : String) (d : Nat) (st : CrawlState)
    (hg : u ∈ st.checked ∨ mU ≤ st.allUrls.length) :
    fetch_sitemap_urls web mD mU u d st = (st, []) := by
  unfold fetch_sitemap_urls
  rw [if_pos hg]

theorem fetch_none (web : String → Option SitemapDoc) (mD : Int) (mU : Nat)
    (u : String) (d : Nat) (st : CrawlState)
    (hg : ¬(u ∈ st.checked ∨ mU ≤ st.allUrls.length)) (hw : web u = none) :
    fetch_sitemap_urls web mD mU u d st =
      (⟨u :: st.checked, st.allUrls, (u, d) :: st.fetchLog⟩, []) := by
  unfold fetch_sitemap_urls
  rw [if_neg hg, hw]

theorem fetch_some_deep (web : String → Option SitemapDoc) (mD : Int) (mU : Nat)
    (u : String) (d : Nat) (st : CrawlState) (doc : SitemapDoc)
    (hg : ¬(u ∈ st.checked ∨ mU ≤ st.allUrls.length)) (hw : web u = some doc)
    (hd : (d : Int) < mD) :
    fetch_sitemap_urls web mD mU u d st =
      (⟨u :: st.checked, addUrls mU st.allUrls doc.urlLocs, (u, d) :: st.fetchLog⟩,
        doc.sitemapLocs.map (fun x => (x, d + 1))) := by
  unfold fetch_sitemap_urls
  rw [if_neg hg, hw]
  show (if (d : Int) < mD then _ else _) = _
  rw [if_pos hd]

theorem fetch_some_shallow (web : String → Option SitemapDoc) (mD : Int) (mU : Nat)
    (u : String) (d : Nat) (st : CrawlState) (doc : SitemapDoc)
    (hg : ¬(u ∈ st.checked ∨ mU ≤ st.allUrls.length)) (hw : web u = some doc)
    (hd : ¬((d : Int) < mD)) :
    fetch_sitemap_urls web mD mU u d st =
      (⟨u :: st.checked, addUrls mU st.allUrls doc.urlLocs, (u, d) :: st.fetchLog⟩, []) := by
  unfold fetch_sitemap_urls
  rw [if_neg hg, hw]
  show (if (d : Int) < mD then _ else _) = _
  rw [if_neg hd]

theorem runLayer_cons (web : String → Option SitemapDoc) (mD : Int) (mU : Nat)
    (u : String) (d : Nat) (ts : List (String × Nat)) (st : CrawlState) :
    runLayer web mD mU ((u, d) :: ts) st =
      ((runLayer web mD mU ts (fetch_sitemap_urls web mD mU u d st).1).1,
        (fetch_sitemap_urls web mD mU u d st).2 ++
          (runLayer web mD mU ts (fetch_sitemap_urls web mD mU u d st).1).2) := rfl

theorem crawlLayers_cons (web : String → Option SitemapDoc) (mD : Int) (mU : Nat)
    (fuel : Nat) (t : String × Nat) (ts : List (String × Nat)) (st : CrawlState) :
    crawlLayers web mD mU (fuel + 1) (t :: ts) st =
      if mU ≤ (runLayer web mD mU (t :: ts) st).1.allUrls.length
      then (runLayer web mD mU (t :: ts) st).1
      else crawlLayers web mD mU fuel (runLayer web mD mU (t :: ts) st).2
        (runLayer web mD mU (t :: ts) st).1 := rfl

/-! ### Worker lemmas -/

theorem fetch_registryInv (web : String → Option SitemapDoc) (mD : Int) (mU : Nat)
    (u : String) (d : Nat) (st : CrawlState) (h : RegistryInv mU st) :
    RegistryInv mU (fetch_sitemap_urls web mD mU u d st).1 := by
  obtain ⟨h1, h2, h3, h4⟩ := h
  by_cases hg : u ∈ st.checked ∨ mU ≤ st.allUrls.length
  · rw [fetch_guard_true web mD mU u d st hg]
    exact ⟨h1, h2, h3, h4⟩
  · have hnc : u ∉ st.checked := fun hc => hg (Or.inl hc)
    have hlog : (((u, d) :: st.fetchLog).map Prod.fst).Nodup := by
      simp only [List.map_cons]
      refine List.nodup_cons.mpr ⟨?_, h3⟩
      intro hm
      obtain ⟨p, hp, hpe⟩ := List.mem_map.mp hm
      exact hnc (hpe ▸ h4 p hp)
    have hmem : ∀ p ∈ (u, d) :: st.fetchLog, p.1 ∈ u :: st.checked := by
      intro p hp
      rcases List.mem_cons.mp hp with rfl | hp
      · exact List.mem_cons_self _ _
      · exact List.mem_cons_of_mem _ (h4 p hp)
    have hlen2 : ∀ doc : SitemapDoc, (addUrls mU st.allUrls doc.urlLocs).length ≤ mU :=
      fun doc => addUrls_length_le mU doc.urlLocs st.allUrls h1
    have hnd2 : ∀ doc : SitemapDoc, (addUrls mU st.allUrls doc.urlLocs).Nodup :=
      fun doc => addUrls_nodup mU doc.urlLocs st.allUrls h2
    cases hw : web u with
    | none =>
      rw [fetch_none web mD mU u d st hg hw]
      exact ⟨h1, h2, hlog, hmem⟩
    | some doc =>
      by_cases hd : (d : Int) < mD
      · rw [fetch_some_deep web mD mU u d st doc hg hw hd]
        exact ⟨hlen2 doc, hnd2 doc, hlog, hmem⟩
      · rw [fetch_some_shallow web mD mU u d st doc hg hw hd]
        exact ⟨hlen2 doc, hnd2 doc, hlog, hmem⟩

theorem fetch_state_suffix (web : String → Option SitemapDoc) (mD : Int) (mU : Nat)
    (u : String) (d : Nat) (st : CrawlState) :
    st.checked <:+ (fetch_sitemap_urls web mD mU u d st).1.checked ∧
      st.allUrls <:+ (fetch_sitemap_urls web mD mU u d st).1.allUrls ∧
      st.fetchLog <:+ (fetch_sitemap_urls web mD mU u d st).1.fetchLog := by
  by_cases hg : u ∈ st.checked ∨ mU ≤ st.allUrls.length
  · rw [fetch_guard_true web mD mU u d st hg]
    exact ⟨List.suffix_refl _, List.suffix_refl _, List.suffix_refl _⟩
  · cases hw : web u with
    | none =>
      rw [fetch_none web mD mU u d st hg hw]
      exact ⟨List.suffix_cons u _, List.suffix_refl _, List.suffix_cons (u, d) _⟩
    | some doc =>
      by_cases hd : (d : Int) < mD
      · rw [fetch_some_deep web mD mU u d st doc hg hw hd]
        exact ⟨List.suffix_cons u _, addUrls_suffix mU doc.urlLocs st.allUrls,
          List.suffix_cons (u, d) _⟩
      · rw [fetch_some_shallow web mD mU u d st doc hg hw hd]
        exact ⟨List.suffix_cons u _, addUrls_suffix mU doc.urlLocs st.allUrls,
          List.suffix_cons (u, d) _⟩

theorem fetch_depthInv (web : String → Option SitemapDoc) (mD : Int) (mU : Nat)
    (u : String) (d : Nat) (st : CrawlState) (hd : (d : Int) ≤ mD) (hst : DepthInv mD st) :
    DepthInv mD (fetch_sitemap_urls web mD mU u d st).1 ∧
      ∀ p ∈ (fetch_sitemap_urls web mD mU u d st).2, (p.2 : Int) ≤ mD := by
  have hlog : ∀ p ∈ (u, d) :: st.fetchLog, ((p.2 : Int) ≤ mD) := by
    intro p hp
    rcases List.mem_cons.mp hp with rfl | hp
    · exact hd
    · exact hst p hp
  by_cases hg : u ∈ st.checked ∨ mU ≤ st.allUrls.length
  · rw [fetch_guard_true web mD mU u d st hg]
    exact ⟨hst, by simp⟩
  · cases hw : web u with
    | none =>
      rw [fetch_none web mD mU u d st hg hw]
      exact ⟨hlog, by simp⟩
    | some doc =>
      by_cases hdl : (d : Int) < mD
      · rw [fetch_some_deep web mD mU u d st doc hg hw hdl]
        refine ⟨hlog, fun p hp => ?_⟩
        obtain ⟨x, _, hpe⟩ := List.mem_map.mp hp
        subst hpe
        push_cast
        omega
      · rw [fetch_some_shallow web mD mU u d st doc hg hw hdl]
        exact ⟨hlog, by simp⟩

/-! ### Layer and scheduler lemmas -/

theorem runLayer_registryInv (web : String → Option SitemapDoc) (mD : Int) (mU : Nat)
    (q : List (String × Nat)) (st : CrawlState) (h : RegistryInv mU st) :
    RegistryInv mU (runLayer web mD mU q st).1 := by
  induction q generalizing st with
  | nil => exact h
  | cons t ts ih =>
    obtain ⟨u, d⟩ := t
    exact ih (fetch_sitemap_urls web mD mU u d st).1 (fetch_registryInv web mD mU u d st h)

theorem runLayer_state_suffix (web : String → Option SitemapDoc) (mD : Int) (mU : Nat)
    (q : List (String × Nat)) (st : CrawlState) :
    st.checked <:+ (runLayer web mD mU q st).1.checked ∧
      st.allUrls <:+ (runLayer web mD mU q st).1.allUrls ∧
      st.fetchLog <:+ (runLayer web mD mU q st).1.fetchLog := by
  induction q generalizing st with
  | nil => exact ⟨List.suffix_refl _, List.suffix_refl _, List.suffix_refl _⟩
  | cons t ts ih =>
    obtain ⟨u, d⟩ := t
    obtain ⟨s1, s2, s3⟩ := fetch_state_suffix web mD mU u d st
    obtain ⟨t1, t2, t3⟩ := ih (fetch_sitemap_urls web mD mU u d st).1
    exact ⟨s1.trans t1, s2.trans t2, s3.trans t3⟩

theorem runLayer_depthInv (web : String → Option SitemapDoc) (mD : Int) (mU : Nat)
    (q : List (String × Nat)) (st : CrawlState)
    (hq : ∀ p ∈ q, (p.2 : Int) ≤ mD) (hst : DepthInv mD st) :
    DepthInv mD (runLayer web mD mU q st).1 ∧
      ∀ p ∈ (runLayer web mD mU q st).2, (p.2 : Int) ≤ mD := by
  induction q generalizing st with
  | nil => exact ⟨hst, fun p hp => by simp [runLayer] at hp⟩
  | cons t ts ih =>
    obtain ⟨u, d⟩ := t
    obtain ⟨f1, f2⟩ :=
      fetch_depthInv web mD mU u d st (hq (u, d) (List.mem_cons_self _ _)) hst
    obtain ⟨l1, l2⟩ := ih (fetch_sitemap_urls web mD mU u d st).1
      (fun p hp => hq p (List.mem_cons_of_mem _ hp)) f1
    refine ⟨l1, fun p hp => ?_⟩
    rcases List.mem_append.mp hp with hp | hp
    · exact f2 p hp
    · exact l2 p hp

theorem crawlLayers_registryInv (web : String → Option SitemapDoc) (mD : Int) (mU : Nat)
    (fuel : Nat) (q : List (String × Nat)) (st : CrawlState) (h : RegistryInv mU st) :
    RegistryInv mU (crawlLayers web mD mU fuel q st) := by
  induction fuel generalizing q st with
  | zero => exact h
  | succ fuel ih =>
    cases q with
    | nil => exact h
    | cons t ts =>
      rw [crawlLayers_cons]
      split
      · exact runLayer_registryInv web mD mU (t :: ts) st h
      · exact ih _ _ (runLayer_registryInv web mD mU (t :: ts) st h)

theorem crawlLayers_state_suffix (web : String → Option SitemapDoc) (mD : Int) (mU : Nat)
    (fuel : Nat) (q : List (String × Nat)) (st : CrawlState) :
    st.checked <:+ (crawlLayers web mD mU fuel q st).checked ∧
      st.allUrls <:+ (crawlLayers web mD mU fuel q st).allUrls ∧
      st.fetchLog <:+ (crawlLayers web mD mU fuel q st).fetchLog := by
  induction fuel generalizing q st with
  | zero => exact ⟨List.suffix_refl _, List.suffix_refl _, List.suffix_refl _⟩
  | succ fuel ih =>
    cases q with
    | nil => exact ⟨List.suffix_refl _, List.suffix_refl _, List.suffix_refl _⟩
    | cons t ts =>
      rw [crawlLayers_cons]
      obtain ⟨s1, s2, s3⟩ := runLayer_state_suffix web mD mU (t :: ts) st
      split
      · exact ⟨s1, s2, s3⟩
      · obtain ⟨t1, t2, t3⟩ := ih (runLayer web mD mU (t :: ts) st).2
          (runLayer web mD mU (t :: ts) st).1
        exact ⟨s1.trans t1, s2.trans t2, s3.trans t3⟩

theorem crawlLayers_depthInv (web : String → Option SitemapDoc) (mD : Int) (mU : Nat)
    (fuel : Nat) (q : List (String × Nat)) (st : CrawlState)
    (hq : ∀ p ∈ q, (p.2 : Int) ≤ mD) (hst : DepthInv mD st) :
    DepthInv mD (crawlLayers web mD mU fuel q st) := by
  induction fuel generalizing q st with
  | zero => exact hst
  | succ fuel ih =>
    cases q with
    | nil => exact hst
    | cons t ts =>
      rw [crawlLayers_cons]
      obtain ⟨l1, l2⟩ := runLayer_depthInv web mD mU (t :: ts) st hq hst
      split
      · exact l1
      · exact ih _ _ l2 l1

theorem emptyCrawlState_registryInv (mU : Nat) : RegistryInv mU emptyCrawlState :=
  ⟨Nat.zero_le _, List.nodup_nil, List.nodup_nil, by simp [emptyCrawlState]⟩

theorem threaded_crawler_registryInv (web : String → Option SitemapDoc) (mD : Int)
    (mU : Nat) (seeds : List String) (st : CrawlState) (h : RegistryInv mU st) :
    RegistryInv mU (threaded_crawler web mD mU seeds st) :=
  crawlLayers_registryInv web mD mU (mD.toNat + 2) (seeds.map (fun u => (u, 0))) st h

theorem threaded_crawler_state_suffix (web : String → Option SitemapDoc) (mD : Int)
    (mU : Nat) (seeds : List String) (st : CrawlState) :
    st.checked <:+ (threaded_crawler web mD mU seeds st).checked ∧
      st.allUrls <:+ (threaded_crawler web mD mU seeds st).allUrls ∧
      st.fetchLog <:+ (threaded_crawler web mD mU seeds st).fetchLog :=
  crawlLayers_state_suffix web mD mU (mD.toNat + 2) (seeds.map (fun u => (u, 0))) st

theorem threaded_crawler_depthInv (web : String → Option SitemapDoc) (mD : Int)
    (mU : Nat) (seeds : List String) (st : CrawlState) (h0 : 0 ≤ mD) (hst : DepthInv mD st) :
    DepthInv mD (threaded_crawler web mD mU seeds st) := by
  refine crawlLayers_depthInv web mD mU (mD.toNat + 2) (seeds.map (fun u => (u, 0))) st
    (fun p hp => ?_) hst
  obtain ⟨x, _, hpe⟩ := List.mem_map.mp hp
  subst hpe
  simpa using h0

/-! ### Fetch-loop lemmas -/

theorem runAttempts_exn_step (oracle : Nat → AttemptOutcome) (k n : Nat)
    (ho : oracle (n + 1) = AttemptOutcome.fetchExn) :
    runAttempts oracle (k + 1) n = runAttempts oracle k (n + 1) := by
  simp only [runAttempts]
  rw [ho]

theorem runAttempts_malformed_step (oracle : Nat → AttemptOutcome) (k n : Nat)
    (ho : oracle (n + 1) = AttemptOutcome.resp 200 RespBody.malformedXml) :
    runAttempts oracle (k + 1) n = runAttempts oracle k (n + 1) := by
  simp only [runAttempts]
  rw [ho]
  rfl

theorem runAttempts_badStatus_first (oracle : Nat → AttemptOutcome) (k n status : Nat)
    (body : RespBody) (hs : status ≠ 200)
    (ho : oracle (n + 1) = AttemptOutcome.resp status body) :
    runAttempts oracle (k + 1) n = (TaskResult.terminalBadStatus status, n + 1) := by
  simp only [runAttempts]
  rw [ho]
  show (if status = 200 then _ else _) = _
  rw [if_neg hs]

theorem runAttempts_success_first (oracle : Nat → AttemptOutcome) (k n : Nat)
    (doc : SitemapDoc) (ho : oracle (n + 1) = AttemptOutcome.resp 200 (RespBody.wellFormed doc)) :
    runAttempts oracle (k + 1) n = (TaskResult.success doc, n + 1) := by
  simp only [runAttempts]
  rw [ho]
  rfl

theorem runAttempts_retryable (oracle : Nat → AttemptOutcome)
    (hor : ∀ i, retryableOutcome (oracle i) = true) :
    ∀ k n, runAttempts oracle k n = (TaskResult.exhausted, n + k)
  | 0, n => by simp [runAttempts]
  | k + 1, n => by
    have h := hor (n + 1)
    have step : runAttempts oracle (k + 1) n = runAttempts oracle k (n + 1) := by
      cases ho : oracle (n + 1) with
      | fetchExn => exact runAttempts_exn_step oracle k n ho
      | resp status body =>
        rw [ho] at h
        simp only [retryableOutcome, Bool.and_eq_true, Bool.or_eq_true, beq_iff_eq] at h
        obtain ⟨rfl, hb⟩ := h
        simp only [runAttempts]
        rw [ho]
        rcases hb with rfl | rfl <;> rfl
    rw [step, runAttempts_retryable oracle hor k (n + 1)]
    have : n + 1 + k = n + (k + 1) := by omega
    rw [this]

theorem fetchTask_retryable (oracle : Nat → AttemptOutcome)
    (hor : ∀ i, retryableOutcome (oracle i) = true) (retries : Nat) :
    fetchTask oracle retries = (TaskResult.exhausted, retries) := by
  unfold fetchTask
  rw [runAttempts_retryable oracle hor retries 0, Nat.zero_add]

/-! ### Output-sorting lemmas -/

theorem sortStrings_perm (l : List String) : (sortStrings l).Perm l :=
  List.perm_insertionSort strLe l

theorem sortStrings_sorted (l : List String) : (sortStrings l).Pairwise strLe := by
  haveI : IsTotal String strLe := ⟨strLe_total⟩
  haveI : IsTrans String strLe := ⟨strLe_trans⟩
  exact List.sorted_insertionSort strLe l

theorem sortStrings_nodup (l : List String) (h : l.Nodup) : (sortStrings l).Nodup :=
  (List.Perm.nodup_iff (sortStrings_perm l)).mpr h

/-! ## Claim theorems -/

/-- Claim C1: the set of collected leaf URLs never exceeds `maxUrls`: the
atomic check-and-insert of lines 61-63 preserves the bound at every single
step (so no two interleaved insertions can push the count past the cap),
and the final output set of a whole crawl run started from the empty
registry has size at most `maxUrls`. -/
theorem claim_C1_maxUrls_cap (m : Nat) (s : List String) (u : String) (h : s.length ≤ m)
    (web : String → Option SitemapDoc) (mD : Int) (seeds : List String) :
    (tryAddURL m s u).length ≤ m ∧
      (threaded_crawler web mD m seeds emptyCrawlState).allUrls.length ≤ m :=
  ⟨tryAddURL_length_le m s u h,
    (threaded_crawler_registryInv web mD m seeds emptyCrawlState
      (emptyCrawlState_registryInv m)).1⟩

/-- Witness for C1 at `maxUrls = 1` on the two-document example graph. -/
theorem claim_C1_maxUrls_cap_witness :
    [leafA].length ≤ 1 ∧
      ((tryAddURL 1 [leafA] leafB).length ≤ 1 ∧
        (threaded_crawler exWeb 5 1 [rootUrl] emptyCrawlState).allUrls.length ≤ 1) :=
  ⟨by decide, claim_C1_maxUrls_cap 1 [leafA] leafB (by decide) exWeb 5 [rootUrl]⟩

/-- Claim C2: for every document graph and every seed list (duplicates and
shared references included — the quantification over arbitrary queues covers
every serialization of the atomic claim sections), each sitemap URL passes
the claim guard and reaches the fetch adapter at most once, and each leaf
URL is recorded at most once; concretely, a sitemap referenced by two seed
lines and one parent document is fetched exactly once and its leaf appears
exactly once. -/
theorem claim_C2_fetch_once (web : String → Option SitemapDoc) (mD : Int) (mU : Nat)
    (seeds : List String) :
    (((threaded_crawler web mD mU seeds emptyCrawlState).fetchLog.map Prod.fst).Nodup ∧
      (threaded_crawler web mD mU seeds emptyCrawlState).allUrls.Nodup) ∧
      (threaded_crawler exWeb 5 100 [rootUrl, subUrl, subUrl]
          emptyCrawlState).fetchLog.map Prod.fst = [subUrl, rootUrl] ∧
      (threaded_crawler exWeb 5 100 [rootUrl, subUrl, subUrl]
          emptyCrawlState).allUrls = [leafB, leafA] := by
  obtain ⟨_, h2, h3, _⟩ := threaded_crawler_registryInv web mD mU seeds emptyCrawlState
    (emptyCrawlState_registryInv mU)
  exact ⟨⟨h3, h2⟩, by decide, by decide⟩

/-- Claim C3 counterexample: with `retries = 2` and HTTP 500 answered on
every attempt, the code performs exactly 1 fetch attempt — the non-2xx
branch on lines 41-45 returns immediately instead of consuming a retry —
not the 2 attempts the claim asserts. -/
theorem claim_C3_counterexample :
    (fetchTask oracle500 2).2 = 1 ∧ ¬(fetchTask oracle500 2).2 = 2 := by decide

/-- Claim C3 amended: a fetch error (raised exception) is retryable,
consuming one retry per attempt until the budget is exhausted; but a
non-2xx HTTP response is terminal immediately: the task is dropped after
that single attempt, so a sitemap answering HTTP 500 on every attempt with
any positive retry budget sees exactly 1 fetch attempt. -/
theorem claim_C3_amended (retries : Nat) (h : 1 ≤ retries) (status : Nat)
    (hs : status ≠ 200) (body : RespBody) :
    fetchTask (fun _ => AttemptOutcome.resp status body) retries
        = (TaskResult.terminalBadStatus status, 1) ∧
      fetchTask oracleExn retries = (TaskResult.exhausted, retries) := by
  constructor
  · obtain ⟨k, rfl⟩ : ∃ k, retries = k + 1 := ⟨retries - 1, by omega⟩
    exact runAttempts_badStatus_first _ k 0 status body hs rfl
  · exact fetchTask_retryable oracleExn (fun i => rfl) retries

/-- Witness for the amended C3 at `retries = 2`, HTTP 500. -/
theorem claim_C3_amended_witness :
    (1 ≤ 2 ∧ (500 : Nat) ≠ 200) ∧
      (fetchTask (fun _ => AttemptOutcome.resp 500 (RespBody.wellFormed ⟨[], []⟩)) 2
          = (TaskResult.terminalBadStatus 500, 1) ∧
        fetchTask oracleExn 2 = (TaskResult.exhausted, 2)) :=
  ⟨⟨by decide, by decide⟩,
    claim_C3_amended 2 (by decide) 500 (by decide) (RespBody.wellFormed ⟨[], []⟩)⟩

/-- Claim C4 counterexample: a 200 response whose body is malformed XML is
caught by the generic `except` on line 77 and the loop continues: with
`retries = 2` the code makes 2 fetch attempts, not the single attempt the
claim asserts. -/
theorem claim_C4_counterexample :
    (fetchTask oracleMalformed200 2).2 = 2 ∧ ¬(fetchTask oracleMalformed200 2).2 = 1 := by
  decide

/-- Claim C4 amended: an XML parse failure is retryable, not terminal: it
consumes one retry and the fetch is attempted again until the budget is
exhausted (with malformed 200 bodies throughout, exactly `retries` fetch
attempts occur), and a parse failure followed by a well-formed response
succeeds on the later attempt. -/
theorem claim_C4_amended (retries : Nat) (doc : SitemapDoc) :
    fetchTask oracleMalformed200 retries = (TaskResult.exhausted, retries) ∧
      fetchTask (fun n => if n = 1 then AttemptOutcome.resp 200 RespBody.malformedXml
          else AttemptOutcome.resp 200 (RespBody.wellFormed doc)) (retries + 2)
        = (TaskResult.success doc, 2) := by
  refine ⟨fetchTask_retryable oracleMalformed200 (fun i => rfl) retries, ?_⟩
  unfold fetchTask
  rw [runAttempts_malformed_step _ (retries + 1) 0 rfl]
  rw [runAttempts_success_first _ retries 1 doc rfl]

/-- Claim C5: no task with depth greater than `maxDepth` is ever handed to
the fetch adapter (seeds enter at depth 0 and line 72 enqueues `d + 1` only
when `d < maxDepth`), and with `maxDepth = 0` the example graph yields only
leaf `a` while `sub.xml` is never fetched. -/
theorem claim_C5_depth_bound (web : String → Option SitemapDoc) (mD : Int) (mU : Nat)
    (seeds : List String) (h0 : 0 ≤ mD) :
    (∀ p ∈ (threaded_crawler web mD mU seeds emptyCrawlState).fetchLog, (p.2 : Int) ≤ mD) ∧
      (threaded_crawler exWeb 0 10000 [rootUrl] emptyCrawlState).allUrls = [leafA] ∧
      (threaded_crawler exWeb 0 10000 [rootUrl] emptyCrawlState).fetchLog = [(rootUrl, 0)] := by
  refine ⟨?_, by decide, by decide⟩
  exact threaded_crawler_depthInv web mD mU seeds emptyCrawlState h0
    (fun p hp => by simp [emptyCrawlState] at hp)

/-- Witness for C5 at `maxDepth = 5` on the example graph. -/
theorem claim_C5_depth_bound_witness :
    ((0 : Int) ≤ 5) ∧
      ∀ p ∈ (threaded_crawler exWeb 5 10000 [rootUrl] emptyCrawlState).fetchLog,
        ((p.2 : Int) ≤ 5) :=
  ⟨by decide, (claim_C5_depth_bound exWeb 5 10000 [rootUrl] (by decide)).1⟩

/-- Claim C6 counterexample: `main` merely returns on an unreadable input
file (line 154) and on an input with no recognizable sitemap reference
(line 158) — the script never calls `sys.exit`, so the process exit status
is 0 in both cases, not the non-zero status the claim asserts. -/
theorem claim_C6_counterexample :
    (mainRun InputFile.unreadable exWeb 5 10000).exitCode = 0 ∧
      (mainRun (InputFile.readable [notSitemapLine]) exWeb 5 10000).exitCode = 0 ∧
      filterSitemapLines [notSitemapLine] = [] := by decide

/-- Claim C6 amended: the process exits zero in every run; when the input
file cannot be read or contains no recognizable sitemap reference it logs
an error and stops without writing the output file, and otherwise it
writes the sorted collected URLs. -/
theorem claim_C6_amended (web : String → Option SitemapDoc) (mD : Int) (mU : Nat)
    (input : InputFile) (ls : List String) :
    (mainRun input web mD mU).exitCode = 0 ∧
      (mainRun InputFile.unreadable web mD mU).outputWritten = false ∧
      (filterSitemapLines ls = [] →
        (mainRun (InputFile.readable ls) web mD mU).outputWritten = false) ∧
      (filterSitemapLines ls ≠ [] →
        (mainRun (InputFile.readable ls) web mD mU).outputWritten = true ∧
          (mainRun (InputFile.readable ls) web mD mU).outputLines =
            sortStrings (threaded_crawler web mD mU (filterSitemapLines ls)
              emptyCrawlState).allUrls) := by
  refine ⟨?_, rfl, fun he => ?_, fun hne => ?_⟩
  · cases input with
    | unreadable => rfl
    | readable ls2 =>
      by_cases hf : filterSitemapLines ls2 = []
      · simp only [mainRun, if_pos hf]
      · simp only [mainRun, if_neg hf]
  · simp only [mainRun, if_pos he]
  · simp [mainRun, hne]

/-- Witness for the amended C6 on a readable single-line input. -/
theorem claim_C6_amended_witness :
    filterSitemapLines [rootUrl] ≠ [] ∧
      (mainRun (InputFile.readable [rootUrl]) exWeb 5 10000).outputWritten = true :=
  ⟨by decide,
    ((claim_C6_amended exWeb 5 10000 (InputFile.readable [rootUrl]) [rootUrl]).2.2.2
      (by decide)).1⟩

/-- Claim C7 counterexample: a response body that is a gzip stream (and so
starts with the gzip magic bytes) served with a plain XML content-type
from a URL without the `.gz` suffix: the spec condition says to
decompress, but line 49 ignores the body bytes — the code does not
decompress, and parsing the raw gzip bytes fails. -/
theorem claim_C7_counterexample :
    startsWithGzipMagic (RawBody.gzipped leafA) = true ∧
      specDecompressCondition (RawBody.gzipped leafA) ctXml rootUrl = true ∧
      decompressApplied ctXml rootUrl = false ∧
      decodeStep (RawBody.gzipped leafA) ctXml rootUrl = none := by decide

/-- Claim C7 amended: the decoder decompresses if and only if the
content-type contains `gzip` or the URL ends in `.gz`; the body's magic
bytes are never consulted, so decoding succeeds exactly when that
hint-based decision happens to match the actual body format. -/
theorem claim_C7_amended (b : RawBody) (t contentType url : String) :
    (decompressApplied contentType url =
        (listContains gzipNeedle.data contentType.data || strEndsWith url gzSuffix)) ∧
      (decodeStep (RawBody.gzipped t) contentType url = some t ↔
        decompressApplied contentType url = true) ∧
      (decodeStep (RawBody.plain t) contentType url = some t ↔
        decompressApplied contentType url = false) ∧
      (decodeStep b contentType url).isSome =
        (startsWithGzipMagic b == decompressApplied contentType url) := by
  refine ⟨rfl, ?_, ?_, ?_⟩ <;>
    · by_cases hda : decompressApplied contentType url <;>
        cases b <;> simp [decodeStep, startsWithGzipMagic, hda]

/-- Claim C8 counterexample: the registry sets are module-level globals
that `threaded_crawler` never resets: after a first run has claimed
`root.xml` and collected its leaf, a second invocation in the same process
starts from that populated registry and fetches nothing at all — its final
state is unchanged — whereas a crawl of the same seed from empty sets does
reach the fetch adapter.  This contradicts the claimed reset-per-invocation
lifetime. -/
theorem claim_C8_counterexample :
    run8a.checked ≠ [] ∧ run8a.allUrls ≠ [] ∧ run8b = run8a ∧
      (threaded_crawler web8 5 100 [rootUrl] emptyCrawlState).fetchLog ≠ [] := by decide

/-- Claim C8 amended: the two registry sets persist for the process
lifetime: every crawler invocation only extends them (never clears them),
so a second run in the same process starts from the first run's final
state — concretely, re-crawling the same seed changes nothing — and only a
fresh process starts from empty sets. -/
theorem claim_C8_amended (web : String → Option SitemapDoc) (mD : Int) (mU : Nat)
    (seeds : List String) (st : CrawlState) :
    (st.checked <:+ (threaded_crawler web mD mU seeds st).checked ∧
      st.allUrls <:+ (threaded_crawler web mD mU seeds st).allUrls) ∧
      run8b = run8a :=
  ⟨⟨(threaded_crawler_state_suffix web mD mU seeds st).1,
    (threaded_crawler_state_suffix web mD mU seeds st).2.1⟩, by decide⟩

/-- Claim C9: whenever the output stage is reached, the written lines are
exactly the collected leaf URLs — a permutation of the (duplicate-free)
collected set — sorted ascending in code-point lexicographic order, one
URL per output line. -/
theorem claim_C9_output_sorted (web : String → Option SitemapDoc) (mD : Int) (mU : Nat)
    (ls : List String) (h : ¬filterSitemapLines ls = []) :
    (mainRun (InputFile.readable ls) web mD mU).outputLines =
        sortStrings (threaded_crawler web mD mU (filterSitemapLines ls)
          emptyCrawlState).allUrls ∧
      (mainRun (InputFile.readable ls) web mD mU).outputLines.Perm
        (threaded_crawler web mD mU (filterSitemapLines ls) emptyCrawlState).allUrls ∧
      (mainRun (InputFile.readable ls) web mD mU).outputLines.Pairwise strLe ∧
      (mainRun (InputFile.readable ls) web mD mU).outputLines.Nodup := by
  have heq : (mainRun (InputFile.readable ls) web mD mU).outputLines =
      sortStrings (threaded_crawler web mD mU (filterSitemapLines ls)
        emptyCrawlState).allUrls := by
    simp only [mainRun, if_neg h]
  refine ⟨heq, heq ▸ sortStrings_perm _, heq ▸ sortStrings_sorted _, heq ▸ ?_⟩
  exact sortStrings_nodup _
    (threaded_crawler_registryInv web mD mU (filterSitemapLines ls) emptyCrawlState
      (emptyCrawlState_registryInv mU)).2.1

/-- Witness for C9 on a readable single-line input over the example graph. -/
theorem claim_C9_output_sorted_witness :
    ¬filterSitemapLines [rootUrl] = [] ∧
      (mainRun (InputFile.readable [rootUrl]) exWeb 5 10000).outputLines.Pairwise strLe :=
  ⟨by decide, (claim_C9_output_sorted exWeb 5 10000 [rootUrl] (by decide)).2.2.1⟩

/-- Claim C10: the at-most-once claim of a sitemap URL is registered (lines
26-29) before the first fetch attempt, not after a successful fetch: when
the fetch of a freshly claimed URL fails, the URL is in `checked_sitemaps`
(incrementing the `sitemaps checked` summary count printed on line 175 by
one), the task returns no nested work, and any later task for the same URL
in the same run is rejected by the guard without touching the network. -/
theorem claim_C10_claim_before_fetch (web : String → Option SitemapDoc) (mD : Int)
    (mU : Nat) (u : String) (d : Nat) (st : CrawlState)
    (h1 : u ∉ st.checked) (h2 : st.allUrls.length < mU) (h3 : web u = none) :
    (fetch_sitemap_urls web mD mU u d st).1.checked = u :: st.checked ∧
      (fetch_sitemap_urls web mD mU u d st).1.fetchLog = (u, d) :: st.fetchLog ∧
      (fetch_sitemap_urls web mD mU u d st).2 = [] ∧
      (fetch_sitemap_urls web mD mU u d st).1.checked.length = st.checked.length + 1 ∧
      ∀ web2 mD2 d2 st2, u ∈ st2.checked →
        fetch_sitemap_urls web2 mD2 mU u d2 st2 = (st2, []) := by
  have hg : ¬(u ∈ st.checked ∨ mU ≤ st.allUrls.length) := by
    push_neg
    exact ⟨h1, by omega⟩
  rw [fetch_none web mD mU u d st hg h3]
  exact ⟨rfl, rfl, rfl, rfl,
    fun web2 mD2 d2 st2 hin => fetch_guard_true web2 mD2 mU u d2 st2 (Or.inl hin)⟩

/-- Witness for C10: claiming `sub.xml` against the one-document graph
(where its fetch fails) from the empty registry. -/
theorem claim_C10_claim_before_fetch_witness :
    (subUrl ∉ emptyCrawlState.checked ∧ emptyCrawlState.allUrls.length < 10 ∧
        web8 subUrl = none) ∧
      (fetch_sitemap_urls web8 5 10 subUrl 1 emptyCrawlState).1.checked =
        subUrl :: emptyCrawlState.checked :=
  ⟨⟨by decide, by decide, by decide⟩,
    (claim_C10_claim_before_fetch web8 5 10 subUrl 1 emptyCrawlState
      (by decide) (by decide) (by decide)).1⟩

end ReconSitemap
